import Mathlib

/-!
Shallow embedding of the Kava-Labs refund-bot (`RefundBot` class).

The repository carries two variants of `RefundBot`; the embedding below
follows the current one (the variant shipped with `scripts/start.js`,
reproduced in `src/README.md` lines 57-347): 25s/5s pacing sleeps,
client-side `status == 1 && expireHeight <= latestBnbBlockHeight` filter,
`return []` on Kava query errors, and local-offset reset on empty pages.
External chain clients (Kava SDK, Binance Chain SDK) are modelled as
function records; network effects are modelled by letting each request
return an error, a missing payload, or a batch of records.  Loops are
modelled with an explicit fuel parameter (`none` = the loop did not
finish within the given fuel).  `requests` and `fetched` fields are ghost
instrumentation recording the offsets queried and the raw records
received, used only to state properties.
-/

set_option linter.unusedVariables false

deriving instance DecidableEq for Except

namespace RefundBot

/-- Outcome of one paginated listing request: the request threw (`err`),
the response payload lacked the swap list (`_.get` returned `undefined`,
`missing`), or a batch of records came back (`batch`). -/
inductive QueryOutcome (α : Type) where
  | err : QueryOutcome α
  | missing : QueryOutcome α
  | batch : List α → QueryOutcome α
deriving DecidableEq, Repr

/-- The records carried by an outcome (none for `err`/`missing`). -/
def QueryOutcome.items {α : Type} : QueryOutcome α → List α
  | .batch xs => xs
  | _ => []

/-- Whether the scan loop keeps going after this outcome: only a
non-empty batch does (`swapBatch && swapBatch.length > 0`). -/
def QueryOutcome.keepGoing {α : Type} : QueryOutcome α → Bool
  | .batch xs => decide (0 < xs.length)
  | _ => false

/-- Minimal view of a Binance Chain atomic swap record as read by the
bot: `swap.status`, `Number.parseInt(swap.expireHeight)`, `swap.swapId`.
Status code 1 is `Open`. -/
structure BnbSwap where
  status : Nat
  expireHeight : Nat
  swapId : String
deriving DecidableEq, Repr

/-- Minimal view of a Kava swap record as read by the bot
(`random_number_hash`, `sender`, `sender_other_chain`). -/
structure KavaSwap where
  random_number_hash : String
  sender : String
  sender_other_chain : String
deriving DecidableEq, Repr

/-- Result object of `bnbClient.swap.refundHTLT` as read by the bot
(`res.status`, `res.result[0].hash`). -/
structure BnbTxResult where
  status : Nat
  hash : String
deriving DecidableEq, Repr

/-- Binance Chain SDK client, as consumed by the bot.
`getSwapByCreator`/`getSwapByRecipient` take (deputy, limit, offset);
`nodeInfoHeight` is the `/api/v1/node-info` latest-block-height request
(not wrapped in any try/catch in the source); `refundHTLT` submits a
refund for a swap ID from the bot's fixed address and may throw, or
return a possibly-absent result object. -/
structure BnbClient where
  getSwapByCreator : String → Nat → Nat → QueryOutcome BnbSwap
  getSwapByRecipient : String → Nat → Nat → QueryOutcome BnbSwap
  nodeInfoHeight : Except Unit Nat
  refundHTLT : String → Except Unit (Option BnbTxResult)

/-- Kava SDK client, as consumed by the bot.  `getSwaps` takes
(offset, limit); the fixed `status: 3` (Expired) filter and 5000ms
timeout arguments are baked in.  `loadMetaData` yields the signer's
account sequence number.  `refundSwap` takes (swapID, sequence); the
fixed fee argument is baked in. -/
structure KavaClient where
  getSwaps : Nat → Nat → QueryOutcome KavaSwap
  loadMetaData : Except Unit Nat
  refundSwap : String → Nat → Except Unit String
  calculateSwapID : String → String → String → String

/-- Persistent fields of a `RefundBot` instance set by the constructor. -/
structure RefundBotState where
  deputyAddresses : List String
  limit : Nat
  offsetIncoming : Nat
  offsetOutgoing : Nat
deriving DecidableEq, Repr

/-- The `RefundBot` constructor: rejects an empty deputy-address list,
otherwise stores the four fields (source defaults: limit 100, both
offsets 0). -/
def make (deputyAddresses : List String) (limit offsetIncoming offsetOutgoing : Nat) :
    Except String RefundBotState :=
  if deputyAddresses.length = 0 then
    .error "must specify at least one Binance Chain deputy address"
  else
    .ok ⟨deputyAddresses, limit, offsetIncoming, offsetOutgoing⟩

/-- `printOffsets`: the two offset values the bot prints, read directly
from the instance fields. -/
def printOffsets (st : RefundBotState) : Nat × Nat :=
  (st.offsetIncoming, st.offsetOutgoing)

/-- The `while (checkNextBatch)` loop of `getRefundableKavaSwaps`:
query a page at `offset`; on a thrown query error the whole function
returns `[]`; on a missing or empty batch the loop stops with the swaps
collected; on a non-empty batch the swaps are appended and the offset is
advanced by `limit`.  The extra list accumulates the offsets requested
(ghost trace). -/
def kavaScanLoop (client : KavaClient) (limit : Nat) :
    Nat → Nat → List KavaSwap → List Nat → Option (List KavaSwap × List Nat)
  | 0, _, _, _ => none
  | fuel + 1, offset, expiredSwaps, reqs =>
    match client.getSwaps offset limit with
    | .err => some ([], reqs ++ [offset])
    | .missing => some (expiredSwaps, reqs ++ [offset])
    | .batch swapBatch =>
      if 0 < swapBatch.length then
        kavaScanLoop client limit fuel (offset + limit) (expiredSwaps ++ swapBatch)
          (reqs ++ [offset])
      else
        some (expiredSwaps, reqs ++ [offset])

/-- `getRefundableKavaSwaps`: run the scan loop from offset 0, then map
each collected record to its swap ID via `calculateSwapID`. -/
def getRefundableKavaSwaps (client : KavaClient) (limit fuel : Nat) :
    Option (List String × List Nat) :=
  match kavaScanLoop client limit fuel 0 [] [] with
  | none => none
  | some (expiredSwaps, reqs) =>
    some (expiredSwaps.map
      (fun s => client.calculateSwapID s.random_number_hash s.sender s.sender_other_chain),
      reqs)

/-- The submission loop of `refundKavaSwaps`: the i-th swap is submitted
with sequence `base + i`; a thrown submission error is caught and
logged; after each submission the bot sleeps 25000 ms.  Returns the
attempt trace (swapID, sequence, outcome) and the sleep trace. -/
def kavaSubmitLoop (client : KavaClient) (base : Nat) :
    List String → Nat → List (String × Nat × Except Unit String) × List Nat
  | [], _ => ([], [])
  | swapID :: rest, i =>
    let outcome := client.refundSwap swapID (base + i)
    let r := kavaSubmitLoop client base rest (i + 1)
    ((swapID, base + i, outcome) :: r.1, 25000 :: r.2)

/-- Observable output of one `refundKavaSwaps` pass. -/
structure KavaPassOut where
  swapIDs : List String
  scanReqs : List Nat
  attempts : List (String × Nat × Except Unit String)
  sleeps : List Nat
deriving DecidableEq, Repr

/-- `refundKavaSwaps`: scan, then fetch the account sequence once
(`loadMetaData`, caught and aborting the pass on error), then run the
submission loop. -/
def refundKavaSwaps (client : KavaClient) (limit fuel : Nat) : Option KavaPassOut :=
  match getRefundableKavaSwaps client limit fuel with
  | none => none
  | some (swapIDs, reqs) =>
    match client.loadMetaData with
    | .error _ => some ⟨swapIDs, reqs, [], []⟩
    | .ok base =>
      let r := kavaSubmitLoop client base swapIDs 0
      some ⟨swapIDs, reqs, r.1, r.2⟩

/-- The client-side refundable predicate of `getRefundableBinanceSwaps`:
`swap.status == 1 && Number.parseInt(swap.expireHeight) <= latestBnbBlockHeight`. -/
def refundable (latestHeight : Nat) (s : BnbSwap) : Bool :=
  decide (s.status = 1 ∧ s.expireHeight ≤ latestHeight)

/-- The listing query used by a direction: creator queries for incoming
swaps, recipient queries for outgoing swaps. -/
def bnbQuery (client : BnbClient) (incoming : Bool) (deputy : String)
    (limit offset : Nat) : QueryOutcome BnbSwap :=
  if incoming then client.getSwapByCreator deputy limit offset
  else client.getSwapByRecipient deputy limit offset

/-- Local state of one `getRefundableBinanceSwaps` call: the collected
open swaps and the two local offset variables (copied from the instance
fields at the start of the call).  `fetched` and `requests` are ghost
traces of all records received and all (deputy, offset) page requests. -/
structure BnbScanSt where
  openSwaps : List BnbSwap
  offsetIncoming : Nat
  offsetOutgoing : Nat
  fetched : List BnbSwap
  requests : List (String × Nat)
deriving DecidableEq, Repr

/-- The local offset variable used by the current direction. -/
def BnbScanSt.curOff (incoming : Bool) (st : BnbScanSt) : Nat :=
  if incoming then st.offsetIncoming else st.offsetOutgoing

/-- How one deputy's `while (checkNextBatch)` loop ended: an empty or
missing batch (normal completion, offsets reset), or a thrown query
error (`return;` out of that deputy's callback, offsets kept). -/
inductive DeputyExit where
  | emptyStop : DeputyExit
  | errStop : DeputyExit
deriving DecidableEq, Repr

/-- The non-empty-batch body of one iteration of the deputy loop in
`getRefundableBinanceSwaps`: record the page request, append the
records passing `refundable` to `openSwaps` (and all records to the
ghost `fetched` trace) and, when the batch length is at most `limit`
(the source's `swapBatch.length <= this.limit` test), advance the
current direction's local offset by `limit`. -/
def bnbStep (incoming : Bool) (limit latestHeight : Nat) (deputy : String)
    (st : BnbScanSt) (swapBatch : List BnbSwap) : BnbScanSt :=
  let st2 : BnbScanSt := { st with
    requests := st.requests ++ [(deputy, st.curOff incoming)],
    openSwaps := st.openSwaps ++ swapBatch.filter (refundable latestHeight),
    fetched := st.fetched ++ swapBatch }
  if swapBatch.length ≤ limit then
    if incoming then { st2 with offsetIncoming := st2.offsetIncoming + limit }
    else { st2 with offsetOutgoing := st2.offsetOutgoing + limit }
  else st2

/-- One deputy's `while (checkNextBatch)` loop in
`getRefundableBinanceSwaps`: query a page at the current direction's
local offset; on a thrown error exit this deputy's callback keeping the
state (`return;` inside the catch); on a missing or empty batch stop
and reset both local offsets to the values copied from the instance at
the start of the call (`initInc`, `initOut`); on a non-empty batch run
`bnbStep` and loop. -/
def bnbLoop (client : BnbClient) (incoming : Bool)
    (limit latestHeight initInc initOut : Nat) (deputy : String) :
    Nat → BnbScanSt → Option (BnbScanSt × DeputyExit)
  | 0, _ => none
  | fuel + 1, st =>
    match bnbQuery client incoming deputy limit (st.curOff incoming) with
    | .err =>
      some ({ st with requests := st.requests ++ [(deputy, st.curOff incoming)] }, .errStop)
    | .missing =>
      some ({ st with requests := st.requests ++ [(deputy, st.curOff incoming)],
                      offsetIncoming := initInc, offsetOutgoing := initOut }, .emptyStop)
    | .batch swapBatch =>
      if 0 < swapBatch.length then
        bnbLoop client incoming limit latestHeight initInc initOut deputy fuel
          (bnbStep incoming limit latestHeight deputy st swapBatch)
      else
        some ({ st with requests := st.requests ++ [(deputy, st.curOff incoming)],
                        offsetIncoming := initInc, offsetOutgoing := initOut }, .emptyStop)

/-- The `asyncForEach(this.deputyAddresses, ...)` fold of
`getRefundableBinanceSwaps`: run each deputy's loop in turn on the
shared local state; both exit kinds continue with the next deputy. -/
def bnbDeputies (client : BnbClient) (incoming : Bool)
    (limit latestHeight initInc initOut fuel : Nat) :
    List String → BnbScanSt → Option BnbScanSt
  | [], st => some st
  | deputy :: rest, st =>
    match bnbLoop client incoming limit latestHeight initInc initOut deputy fuel st with
    | none => none
    | some (st', _) =>
      bnbDeputies client incoming limit latestHeight initInc initOut fuel rest st'

/-- `getRefundableBinanceSwaps`: fetch the latest block height from
node-info (NOT inside any try/catch: a thrown error escapes the whole
call), copy the instance offsets into locals, scan every deputy, and
return the collected swap IDs.  `.ok none` means a loop did not finish
within the fuel. -/
def getRefundableBinanceSwaps (client : BnbClient) (st : RefundBotState)
    (incoming : Bool) (fuel : Nat) :
    Except Unit (Option (List String × BnbScanSt)) :=
  match client.nodeInfoHeight with
  | .error e => .error e
  | .ok latestBnbBlockHeight =>
    match bnbDeputies client incoming st.limit latestBnbBlockHeight
        st.offsetIncoming st.offsetOutgoing fuel st.deputyAddresses
        ⟨[], st.offsetIncoming, st.offsetOutgoing, [], []⟩ with
    | none => .ok none
    | some s => .ok (some (s.openSwaps.map (fun sw => sw.swapId), s))

/-- The submission loop of `refundBinanceChainSwaps`: each swap ID is
submitted via `refundHTLT`; a thrown error is caught and logged; after
each submission the bot sleeps 5000 ms. -/
def bnbSubmitLoop (client : BnbClient) :
    List String → List (String × Except Unit (Option BnbTxResult)) × List Nat
  | [] => ([], [])
  | swapID :: rest =>
    let outcome := client.refundHTLT swapID
    let r := bnbSubmitLoop client rest
    ((swapID, outcome) :: r.1, 5000 :: r.2)

/-- Observable output of one `refundBinanceChainSwaps` pass. -/
structure BnbPassOut where
  swapIDs : List String
  scanIncoming : BnbScanSt
  scanOutgoing : BnbScanSt
  attempts : List (String × Except Unit (Option BnbTxResult))
  sleeps : List Nat
deriving DecidableEq, Repr

/-- `refundBinanceChainSwaps`: scan the incoming then the outgoing
direction, concatenate the IDs, and submit each one. -/
def refundBinanceChainSwaps (client : BnbClient) (st : RefundBotState) (fuel : Nat) :
    Except Unit (Option BnbPassOut) :=
  match getRefundableBinanceSwaps client st true fuel with
  | .error e => .error e
  | .ok none => .ok none
  | .ok (some (incomingSwaps, sInc)) =>
    match getRefundableBinanceSwaps client st false fuel with
    | .error e => .error e
    | .ok none => .ok none
    | .ok (some (outgoingSwaps, sOut)) =>
      let swapIDs := incomingSwaps ++ outgoingSwaps
      let r := bnbSubmitLoop client swapIDs
      .ok (some ⟨swapIDs, sInc, sOut, r.1, r.2⟩)

/-- Observable output of one `refundSwaps` cycle.  `finalState` is the
bot instance's persistent state after the cycle (the source never
assigns to `this.limit`, `this.deputyAddresses`, `this.offsetIncoming`
or `this.offsetOutgoing` outside the constructor). -/
structure CycleOut where
  kava : KavaPassOut
  bnb : BnbPassOut
  finalState : RefundBotState
deriving DecidableEq, Repr

/-- `refundSwaps`: run the Kava pass, then the Binance Chain pass.
There is no try/catch here: an error escaping the Binance pass escapes
the cycle (`some (.error _)`); `none` means a scan loop did not finish
within the fuel. -/
def refundSwaps (kavaClient : KavaClient) (bnbClient : BnbClient)
    (st : RefundBotState) (fuel : Nat) : Option (Except Unit CycleOut) :=
  match refundKavaSwaps kavaClient st.limit fuel with
  | none => none
  | some kOut =>
    match refundBinanceChainSwaps bnbClient st fuel with
    | .error e => some (.error e)
    | .ok none => none
    | .ok (some bOut) => some (.ok ⟨kOut, bOut, st⟩)

/-- Repeated cron invocations of `refundSwaps` on the same bot
instance: each cycle runs on the state left by the previous one; a
cycle that errors or runs out of fuel leaves the instance state as it
was. -/
def runCycles (kc : KavaClient) (bc : BnbClient) (fuel : Nat) :
    Nat → RefundBotState → RefundBotState
  | 0, st => st
  | n + 1, st =>
    match refundSwaps kc bc st fuel with
    | some (.ok out) => runCycles kc bc fuel n out.finalState
    | _ => runCycles kc bc fuel n st

/-! ## Scan-request traces

`ScanReqs q limit o rs` says: starting a page-until-empty loop at offset
`o` against the deterministic page oracle `q`, the loop issues exactly
the requests `rs`; after every outcome on which the loop keeps going
(a non-empty batch) the next request is at the previous offset plus
`limit`, and the final request is the first one whose outcome stops the
loop (an error, a missing payload, or an empty batch). -/
inductive ScanReqs {α : Type} (q : Nat → QueryOutcome α) (limit : Nat) : Nat → List Nat → Prop
  | last {o : Nat} : QueryOutcome.keepGoing (q o) = false → ScanReqs q limit o [o]
  | step {o : Nat} {rs : List Nat} : QueryOutcome.keepGoing (q o) = true →
      ScanReqs q limit (o + limit) rs → ScanReqs q limit o (o :: rs)

/-- All records fetched over a request trace, page by page, concatenated. -/
def pagesItems {α : Type} (q : Nat → QueryOutcome α) (rs : List Nat) : List α :=
  (rs.map (fun o => (q o).items)).flatten

theorem pagesItems_nil {α : Type} (q : Nat → QueryOutcome α) : pagesItems q [] = [] := rfl

theorem pagesItems_cons {α : Type} (q : Nat → QueryOutcome α) (o : Nat) (rs : List Nat) :
    pagesItems q (o :: rs) = (q o).items ++ pagesItems q rs := by
  simp [pagesItems]

theorem scanReqs_ne_nil {α : Type} {q : Nat → QueryOutcome α} {limit o : Nat} {rs : List Nat}
    (h : ScanReqs q limit o rs) : rs ≠ [] := by
  cases h <;> simp

theorem scanReqs_head {α : Type} {q : Nat → QueryOutcome α} {limit o : Nat} {rs : List Nat}
    (h : ScanReqs q limit o rs) : rs.head? = some o := by
  cases h <;> rfl

theorem scanReqs_unique {α : Type} {q : Nat → QueryOutcome α} {limit o : Nat}
    {rs rs' : List Nat} (h : ScanReqs q limit o rs) (h' : ScanReqs q limit o rs') :
    rs = rs' := by
  induction h generalizing rs' with
  | last hstop =>
    cases h' with
    | last _ => rfl
    | step hgo _ => rw [hstop] at hgo; cases hgo
  | step hgo htail ih =>
    cases h' with
    | last hstop => rw [hstop] at hgo; cases hgo
    | step _ htail' => rw [ih htail']

theorem scanReqs_lower {α : Type} {q : Nat → QueryOutcome α} {limit o : Nat} {rs : List Nat}
    (h : ScanReqs q limit o rs) : ∀ x ∈ rs, o ≤ x := by
  induction h with
  | last _ => intro x hx; simp at hx; omega
  | step _ _ ih =>
    intro x hx
    rcases List.mem_cons.mp hx with hx | hx
    · omega
    · have := ih x hx; omega

theorem scanReqs_pairwise {α : Type} {q : Nat → QueryOutcome α} {limit o : Nat} {rs : List Nat}
    (hl : 0 < limit) (h : ScanReqs q limit o rs) : rs.Pairwise (· < ·) := by
  induction h with
  | last _ => simp
  | step _ htail ih =>
    refine List.Pairwise.cons ?_ ih
    intro x hx
    have := scanReqs_lower htail x hx
    omega

/-- Within one scan, no offset is ever requested twice (no mid-scan retry). -/
theorem scanReqs_nodup {α : Type} {q : Nat → QueryOutcome α} {limit o : Nat} {rs : List Nat}
    (hl : 0 < limit) (h : ScanReqs q limit o rs) : rs.Nodup :=
  (scanReqs_pairwise hl h).imp Nat.ne_of_lt

/-! ## Characterization of the Kava scan loop -/

theorem kavaScanLoop_trace (client : KavaClient) (limit : Nat) :
    ∀ fuel off acc pre swaps reqs,
      kavaScanLoop client limit fuel off acc pre = some (swaps, reqs) →
      ∃ rs, ScanReqs (fun o => client.getSwaps o limit) limit off rs ∧
        reqs = pre ++ rs ∧
        ((∃ olast, olast ∈ rs ∧ client.getSwaps olast limit = QueryOutcome.err ∧ swaps = []) ∨
          ((∀ o ∈ rs, client.getSwaps o limit ≠ QueryOutcome.err) ∧
            swaps = acc ++ pagesItems (fun o => client.getSwaps o limit) rs)) := by
  intro fuel
  induction fuel with
  | zero => intro off acc pre swaps reqs h; simp [kavaScanLoop] at h
  | succ fuel ih =>
    intro off acc pre swaps reqs h
    rw [kavaScanLoop] at h
    rcases hq : client.getSwaps off limit with _ | _ | xs <;> rw [hq] at h
    · simp only [Option.some.injEq, Prod.mk.injEq] at h
      refine ⟨[off], ScanReqs.last (by simp [QueryOutcome.keepGoing, hq]), by simp [h.2], ?_⟩
      exact Or.inl ⟨off, by simp, hq, h.1.symm⟩
    · simp only [Option.some.injEq, Prod.mk.injEq] at h
      refine ⟨[off], ScanReqs.last (by simp [QueryOutcome.keepGoing, hq]), by simp [h.2], ?_⟩
      refine Or.inr ⟨by simp [hq], ?_⟩
      simp [← h.1, pagesItems_cons, pagesItems_nil, hq, QueryOutcome.items]
    · dsimp only at h
      by_cases hx : 0 < xs.length
      · rw [if_pos hx] at h
        obtain ⟨rs, hscan, hreqs, hval⟩ := ih (off + limit) (acc ++ xs) (pre ++ [off]) swaps reqs h
        refine ⟨off :: rs, ScanReqs.step (by simp [QueryOutcome.keepGoing, hq, hx]) hscan,
          by simp [hreqs], ?_⟩
        rcases hval with ⟨olast, hmem, herr, hnil⟩ | ⟨hnoerr, hval⟩
        · exact Or.inl ⟨olast, List.mem_cons_of_mem _ hmem, herr, hnil⟩
        · refine Or.inr ⟨?_, by simp [hval, pagesItems_cons, hq, QueryOutcome.items]⟩
          intro o ho
          rcases List.mem_cons.mp ho with rfl | ho
          · simp [hq]
          · exact hnoerr o ho
      · rw [if_neg hx] at h
        simp only [Option.some.injEq, Prod.mk.injEq] at h
        have hxnil : xs = [] := List.length_eq_zero.mp (by omega)
        refine ⟨[off], ScanReqs.last (by simp [QueryOutcome.keepGoing, hq, hx]), by simp [h.2], ?_⟩
        refine Or.inr ⟨by simp [hq], ?_⟩
        simp [← h.1, pagesItems_cons, pagesItems_nil, hq, QueryOutcome.items, hxnil]

theorem kavaScanLoop_eval (client : KavaClient) (limit : Nat) :
    ∀ {off : Nat} {rs : List Nat},
      ScanReqs (fun o => client.getSwaps o limit) limit off rs →
      ∀ acc pre, (kavaScanLoop client limit rs.length off acc pre).isSome := by
  intro off rs h
  induction h with
  | last hstop =>
    intro acc pre
    rw [List.length_singleton, kavaScanLoop]
    rcases hq : client.getSwaps _ limit with _ | _ | xs <;>
      simp only [QueryOutcome.keepGoing, hq] at hstop ⊢
    · simp
    · simp
    · rw [if_neg (by simpa using hstop)]; simp
  | step hgo htail ih =>
    intro acc pre
    rw [List.length_cons, kavaScanLoop]
    rcases hq : client.getSwaps _ limit with _ | _ | xs <;>
      simp only [QueryOutcome.keepGoing, hq] at hgo ⊢
    · cases hgo
    · cases hgo
    · rw [if_pos (by simpa using hgo)]; exact ih _ _

/-- Running `getRefundableKavaSwaps` against a client whose pages stop
after finitely many non-empty batches and raise no error returns the
IDs of the concatenation of all fetched pages. -/
theorem getRefundableKavaSwaps_eval (client : KavaClient) (limit : Nat) (rs : List Nat)
    (hscan : ScanReqs (fun o => client.getSwaps o limit) limit 0 rs)
    (hnoerr : ∀ o ∈ rs, client.getSwaps o limit ≠ QueryOutcome.err) :
    getRefundableKavaSwaps client limit rs.length =
      some ((pagesItems (fun o => client.getSwaps o limit) rs).map
        (fun s => client.calculateSwapID s.random_number_hash s.sender s.sender_other_chain), rs) := by
  obtain ⟨⟨swaps, reqs⟩, hsome⟩ :=
    Option.isSome_iff_exists.mp (kavaScanLoop_eval client limit hscan [] [])
  obtain ⟨rs', hscan', hreqs, hval⟩ :=
    kavaScanLoop_trace client limit rs.length 0 [] [] swaps reqs hsome
  have hrs : rs' = rs := scanReqs_unique hscan' hscan
  subst hrs
  simp only [List.nil_append] at hreqs
  subst hreqs
  rcases hval with ⟨olast, hmem, herr, _⟩ | ⟨_, hval⟩
  · exact absurd herr (hnoerr olast hmem)
  · rw [getRefundableKavaSwaps, hsome, hval]; simp

/-- If any page request of a Kava scan raised an error, `getRefundableKavaSwaps`
returns the empty ID list (the `return []` in the catch). -/
theorem getRefundableKavaSwaps_err (client : KavaClient) (limit : Nat) (rs : List Nat)
    (olast : Nat) (hscan : ScanReqs (fun o => client.getSwaps o limit) limit 0 rs)
    (hmem : olast ∈ rs) (herr : client.getSwaps olast limit = QueryOutcome.err) :
    getRefundableKavaSwaps client limit rs.length = some ([], rs) := by
  obtain ⟨⟨swaps, reqs⟩, hsome⟩ :=
    Option.isSome_iff_exists.mp (kavaScanLoop_eval client limit hscan [] [])
  obtain ⟨rs', hscan', hreqs, hval⟩ :=
    kavaScanLoop_trace client limit rs.length 0 [] [] swaps reqs hsome
  have hrs : rs' = rs := scanReqs_unique hscan' hscan
  subst hrs
  simp only [List.nil_append] at hreqs
  subst hreqs
  rcases hval with ⟨_, _, _, hnil⟩ | ⟨hnoerr, _⟩
  · subst hnil
    rw [getRefundableKavaSwaps, hsome]
    simp
  · exact absurd herr (hnoerr olast hmem)

/-! ## Characterization of the Binance Chain scan loop -/

theorem bnbStep_requests (incoming : Bool) (limit latestHeight : Nat) (deputy : String)
    (st : BnbScanSt) (b : List BnbSwap) :
    (bnbStep incoming limit latestHeight deputy st b).requests =
      st.requests ++ [(deputy, st.curOff incoming)] := by
  simp only [bnbStep]
  split
  · split <;> rfl
  · rfl

theorem bnbStep_fetched (incoming : Bool) (limit latestHeight : Nat) (deputy : String)
    (st : BnbScanSt) (b : List BnbSwap) :
    (bnbStep incoming limit latestHeight deputy st b).fetched = st.fetched ++ b := by
  simp only [bnbStep]
  split
  · split <;> rfl
  · rfl

theorem bnbStep_openSwaps (incoming : Bool) (limit latestHeight : Nat) (deputy : String)
    (st : BnbScanSt) (b : List BnbSwap) :
    (bnbStep incoming limit latestHeight deputy st b).openSwaps =
      st.openSwaps ++ b.filter (refundable latestHeight) := by
  simp only [bnbStep]
  split
  · split <;> rfl
  · rfl

theorem bnbStep_curOff (incoming : Bool) {limit : Nat} (latestHeight : Nat) (deputy : String)
    (st : BnbScanSt) {b : List BnbSwap} (hb : b.length ≤ limit) :
    (bnbStep incoming limit latestHeight deputy st b).curOff incoming =
      st.curOff incoming + limit := by
  simp only [bnbStep]
  rw [if_pos hb]
  cases incoming <;> simp [BnbScanSt.curOff]

theorem bnbLoop_trace (client : BnbClient) (incoming : Bool)
    (limit latestHeight initInc initOut : Nat) (deputy : String)
    (hpages : ∀ off, ((bnbQuery client incoming deputy limit off).items).length ≤ limit) :
    ∀ fuel st st' ex,
      bnbLoop client incoming limit latestHeight initInc initOut deputy fuel st = some (st', ex) →
      ∃ rs, ScanReqs (bnbQuery client incoming deputy limit) limit (st.curOff incoming) rs ∧
        st'.requests = st.requests ++ rs.map (fun o => (deputy, o)) ∧
        st'.fetched = st.fetched ++ pagesItems (bnbQuery client incoming deputy limit) rs ∧
        st'.openSwaps = st.openSwaps ++
          (pagesItems (bnbQuery client incoming deputy limit) rs).filter (refundable latestHeight) ∧
        (ex = DeputyExit.emptyStop → st'.offsetIncoming = initInc ∧ st'.offsetOutgoing = initOut) ∧
        (ex = DeputyExit.errStop →
          bnbQuery client incoming deputy limit (st'.curOff incoming) = QueryOutcome.err ∧
          st'.curOff incoming ∈ rs) := by
  intro fuel
  induction fuel with
  | zero => intro st st' ex h; simp [bnbLoop] at h
  | succ fuel ih =>
    intro st st' ex h
    rw [bnbLoop] at h
    rcases hq : bnbQuery client incoming deputy limit (st.curOff incoming) with _ | _ | xs <;>
      rw [hq] at h <;> dsimp only at h
    · simp only [Option.some.injEq, Prod.mk.injEq] at h
      obtain ⟨hst, hex⟩ := h
      subst hst; subst hex
      refine ⟨[st.curOff incoming],
        ScanReqs.last (by simp [QueryOutcome.keepGoing, hq]), by simp, ?_, ?_, by simp, ?_⟩
      · simp [pagesItems_cons, pagesItems_nil, hq, QueryOutcome.items]
      · simp [pagesItems_cons, pagesItems_nil, hq, QueryOutcome.items]
      · intro _
        refine ⟨?_, by simp [BnbScanSt.curOff]⟩
        have : BnbScanSt.curOff incoming
            { st with requests := st.requests ++ [(deputy, st.curOff incoming)] } =
            st.curOff incoming := by simp [BnbScanSt.curOff]
        rw [this, hq]
    · simp only [Option.some.injEq, Prod.mk.injEq] at h
      obtain ⟨hst, hex⟩ := h
      subst hst; subst hex
      refine ⟨[st.curOff incoming],
        ScanReqs.last (by simp [QueryOutcome.keepGoing, hq]), by simp, ?_, ?_, by simp, by simp⟩
      · simp [pagesItems_cons, pagesItems_nil, hq, QueryOutcome.items]
      · simp [pagesItems_cons, pagesItems_nil, hq, QueryOutcome.items]
    · by_cases hx : 0 < xs.length
      · rw [if_pos hx] at h
        have hb : xs.length ≤ limit := by
          have := hpages (st.curOff incoming)
          rw [hq] at this
          simpa [QueryOutcome.items] using this
        obtain ⟨rs, hscan, hreqs, hfetch, hopen, hempty, herr⟩ := ih _ st' ex h
        rw [bnbStep_curOff incoming latestHeight deputy st hb] at hscan
        refine ⟨st.curOff incoming :: rs,
          ScanReqs.step (by simp [QueryOutcome.keepGoing, hq, hx]) hscan, ?_, ?_, ?_,
          hempty, ?_⟩
        · rw [hreqs, bnbStep_requests]; simp
        · rw [hfetch, bnbStep_fetched]
          simp [pagesItems_cons, hq, QueryOutcome.items]
        · rw [hopen, bnbStep_openSwaps]
          simp [pagesItems_cons, hq, QueryOutcome.items, List.filter_append]
        · intro hx'
          obtain ⟨h1, h2⟩ := herr hx'
          exact ⟨h1, List.mem_cons_of_mem _ h2⟩
      · rw [if_neg hx] at h
        simp only [Option.some.injEq, Prod.mk.injEq] at h
        obtain ⟨hst, hex⟩ := h
        subst hst; subst hex
        have hxnil : xs = [] := List.length_eq_zero.mp (by omega)
        refine ⟨[st.curOff incoming],
          ScanReqs.last (by simp [QueryOutcome.keepGoing, hq, hx]), by simp, ?_, ?_,
          by simp, by simp⟩
        · simp [pagesItems_cons, pagesItems_nil, hq, QueryOutcome.items, hxnil]
        · simp [pagesItems_cons, pagesItems_nil, hq, QueryOutcome.items, hxnil]

theorem bnbLoop_eval (client : BnbClient) (incoming : Bool)
    (limit latestHeight initInc initOut : Nat) (deputy : String)
    (hpages : ∀ off, ((bnbQuery client incoming deputy limit off).items).length ≤ limit) :
    ∀ {off : Nat} {rs : List Nat},
      ScanReqs (bnbQuery client incoming deputy limit) limit off rs →
      ∀ st : BnbScanSt, st.curOff incoming = off →
      (bnbLoop client incoming limit latestHeight initInc initOut deputy rs.length st).isSome := by
  intro off rs h
  induction h with
  | @last o hstop =>
    intro st hoff
    rw [List.length_singleton, bnbLoop]
    rcases hq : bnbQuery client incoming deputy limit (st.curOff incoming) with _ | _ | xs <;>
      dsimp only
    · simp
    · simp
    · rw [hoff] at hq
      rw [hq] at hstop
      simp only [QueryOutcome.keepGoing] at hstop
      rw [if_neg (by simpa using hstop)]
      simp
  | @step o rs' hgo htail ih =>
    intro st hoff
    rw [List.length_cons, bnbLoop]
    rcases hq : bnbQuery client incoming deputy limit (st.curOff incoming) with _ | _ | xs <;>
      dsimp only
    · rw [hoff] at hq; rw [hq] at hgo; simp [QueryOutcome.keepGoing] at hgo
    · rw [hoff] at hq; rw [hq] at hgo; simp [QueryOutcome.keepGoing] at hgo
    · rw [hoff] at hq
      have hx : 0 < xs.length := by
        rw [hq] at hgo; simpa [QueryOutcome.keepGoing] using hgo
      rw [if_pos hx]
      have hb : xs.length ≤ limit := by
        have := hpages o
        rw [hq] at this
        simpa [QueryOutcome.items] using this
      exact ih _ (by rw [bnbStep_curOff incoming latestHeight deputy st hb, hoff])

/-- A deputy loop only ever appends to the collected `openSwaps`; in
particular an error exit keeps everything collected so far. -/
theorem bnbLoop_openSwaps_mono (client : BnbClient) (incoming : Bool)
    (limit latestHeight initInc initOut : Nat) (deputy : String) :
    ∀ fuel st st' ex,
      bnbLoop client incoming limit latestHeight initInc initOut deputy fuel st = some (st', ex) →
      ∃ extra, st'.openSwaps = st.openSwaps ++ extra := by
  intro fuel
  induction fuel with
  | zero => intro st st' ex h; simp [bnbLoop] at h
  | succ fuel ih =>
    intro st st' ex h
    rw [bnbLoop] at h
    rcases hq : bnbQuery client incoming deputy limit (st.curOff incoming) with _ | _ | xs <;>
      rw [hq] at h <;> dsimp only at h
    · simp only [Option.some.injEq, Prod.mk.injEq] at h
      exact ⟨[], by rw [← h.1]; simp⟩
    · simp only [Option.some.injEq, Prod.mk.injEq] at h
      exact ⟨[], by rw [← h.1]; simp⟩
    · by_cases hx : 0 < xs.length
      · rw [if_pos hx] at h
        obtain ⟨extra, hextra⟩ := ih _ st' ex h
        refine ⟨xs.filter (refundable latestHeight) ++ extra, ?_⟩
        rw [hextra, bnbStep_openSwaps]
        simp
      · rw [if_neg hx] at h
        simp only [Option.some.injEq, Prod.mk.injEq] at h
        exact ⟨[], by rw [← h.1]; simp⟩

theorem bnbDeputies_cons (client : BnbClient) (incoming : Bool)
    (limit latestHeight initInc initOut fuel : Nat) (deputy : String) (rest : List String)
    (st st1 : BnbScanSt) (ex : DeputyExit)
    (h : bnbLoop client incoming limit latestHeight initInc initOut deputy fuel st = some (st1, ex)) :
    bnbDeputies client incoming limit latestHeight initInc initOut fuel (deputy :: rest) st =
      bnbDeputies client incoming limit latestHeight initInc initOut fuel rest st1 := by
  rw [bnbDeputies, h]

/-- Through the whole deputy fold, the collected `openSwaps` are exactly
the fetched records that pass the `refundable` filter. -/
theorem bnbDeputies_filter_inv (client : BnbClient) (incoming : Bool)
    (limit latestHeight initInc initOut fuel : Nat)
    (hpages : ∀ d off, ((bnbQuery client incoming d limit off).items).length ≤ limit) :
    ∀ (deputies : List String) (st st' : BnbScanSt),
      bnbDeputies client incoming limit latestHeight initInc initOut fuel deputies st = some st' →
      st.openSwaps = st.fetched.filter (refundable latestHeight) →
      st'.openSwaps = st'.fetched.filter (refundable latestHeight) := by
  intro deputies
  induction deputies with
  | nil =>
    intro st st' h hinv
    rw [bnbDeputies] at h
    cases h
    exact hinv
  | cons d rest ih =>
    intro st st' h hinv
    rw [bnbDeputies] at h
    rcases hl : bnbLoop client incoming limit latestHeight initInc initOut d fuel st with
      _ | ⟨st1, ex⟩ <;> rw [hl] at h
    · cases h
    · obtain ⟨rs, _, _, hfetch, hopen, _, _⟩ :=
        bnbLoop_trace client incoming limit latestHeight initInc initOut d (hpages d) fuel st st1 ex hl
      exact ih st1 st' h (by rw [hopen, hfetch, hinv, List.filter_append])

/-! ## Submission loops and the cycle -/

theorem kavaSubmitLoop_attempts (client : KavaClient) (base : Nat) :
    ∀ (ids : List String) (i : Nat),
      (kavaSubmitLoop client base ids i).1.map (fun a => (a.1, a.2.1)) =
        (ids.enumFrom i).map (fun p => (p.2, base + p.1)) := by
  intro ids
  induction ids with
  | nil => intro i; rfl
  | cons swapID rest ih =>
    intro i
    simp only [kavaSubmitLoop, List.enumFrom, List.map_cons]
    exact congrArg _ (ih (i + 1))

theorem kavaSubmitLoop_ids (client : KavaClient) (base : Nat) :
    ∀ (ids : List String) (i : Nat),
      (kavaSubmitLoop client base ids i).1.map (fun a => a.1) = ids := by
  intro ids
  induction ids with
  | nil => intro i; rfl
  | cons swapID rest ih =>
    intro i
    simp only [kavaSubmitLoop, List.map_cons]
    exact congrArg _ (ih (i + 1))

theorem kavaSubmitLoop_sleeps (client : KavaClient) (base : Nat) :
    ∀ (ids : List String) (i : Nat),
      (kavaSubmitLoop client base ids i).2 = List.replicate ids.length 25000 := by
  intro ids
  induction ids with
  | nil => intro i; rfl
  | cons swapID rest ih =>
    intro i
    simp only [kavaSubmitLoop, List.length_cons, List.replicate_succ]
    exact congrArg _ (ih (i + 1))

theorem bnbSubmitLoop_ids (client : BnbClient) :
    ∀ ids : List String, (bnbSubmitLoop client ids).1.map (fun a => a.1) = ids := by
  intro ids
  induction ids with
  | nil => rfl
  | cons swapID rest ih =>
    simp only [bnbSubmitLoop, List.map_cons]
    exact congrArg _ ih

theorem bnbSubmitLoop_sleeps (client : BnbClient) :
    ∀ ids : List String, (bnbSubmitLoop client ids).2 = List.replicate ids.length 5000 := by
  intro ids
  induction ids with
  | nil => rfl
  | cons swapID rest ih =>
    simp only [bnbSubmitLoop, List.length_cons, List.replicate_succ]
    exact congrArg _ ih

theorem getRefundableBinanceSwaps_no_error (client : BnbClient) (st : RefundBotState)
    (incoming : Bool) (fuel h : Nat) (hnode : client.nodeInfoHeight = Except.ok h) :
    ∀ e, getRefundableBinanceSwaps client st incoming fuel ≠ Except.error e := by
  intro e
  rw [getRefundableBinanceSwaps, hnode]
  dsimp only
  rcases hd : bnbDeputies client incoming st.limit h st.offsetIncoming st.offsetOutgoing fuel
      st.deputyAddresses ⟨[], st.offsetIncoming, st.offsetOutgoing, [], []⟩ with _ | s <;>
    simp

theorem refundBinanceChainSwaps_no_error (bc : BnbClient) (st : RefundBotState)
    (fuel h : Nat) (hnode : bc.nodeInfoHeight = Except.ok h) :
    ∀ e, refundBinanceChainSwaps bc st fuel ≠ Except.error e := by
  intro e
  rw [refundBinanceChainSwaps]
  rcases hi : getRefundableBinanceSwaps bc st true fuel with ei | oi
  · exact absurd hi (getRefundableBinanceSwaps_no_error bc st true fuel h hnode ei)
  · rcases oi with _ | ⟨ids1, s1⟩
    · simp
    · dsimp only
      rcases ho : getRefundableBinanceSwaps bc st false fuel with eo | oo
      · exact absurd ho (getRefundableBinanceSwaps_no_error bc st false fuel h hnode eo)
      · rcases oo with _ | ⟨ids2, s2⟩ <;> simp

theorem refundSwaps_finalState (kc : KavaClient) (bc : BnbClient) (st : RefundBotState)
    (fuel : Nat) (out : CycleOut)
    (h : refundSwaps kc bc st fuel = some (Except.ok out)) : out.finalState = st := by
  rw [refundSwaps] at h
  rcases hk : refundKavaSwaps kc st.limit fuel with _ | kOut <;> rw [hk] at h
  · cases h
  · rcases hb : refundBinanceChainSwaps bc st fuel with e | ob <;> rw [hb] at h
    · simp at h
    · rcases ob with _ | bOut <;> dsimp only at h
      · cases h
      · simp only [Option.some.injEq, Except.ok.injEq] at h
        rw [← h]

theorem runCycles_eq (kc : KavaClient) (bc : BnbClient) (fuel : Nat) :
    ∀ (n : Nat) (st : RefundBotState), runCycles kc bc fuel n st = st := by
  intro n
  induction n with
  | zero => intro st; rfl
  | succ n ih =>
    intro st
    rw [runCycles]
    rcases h : refundSwaps kc bc st fuel with _ | r
    · exact ih st
    · rcases r with e | out
      · exact ih st
      · dsimp only
        rw [refundSwaps_finalState kc bc st fuel out h]
        exact ih st

/-! ## Concrete clients and states used by counterexamples and witnesses -/

/-- An Open (status 1) swap already past expiry at chain height 60. -/
def swOpenExpired : BnbSwap := ⟨1, 50, "idA"⟩

/-- An Open (status 1) swap not yet expired at chain height 60. -/
def swOpenLive : BnbSwap := ⟨1, 70, "idB"⟩

/-- A Completed (status 2) swap. -/
def swCompleted : BnbSwap := ⟨2, 50, "idC"⟩

/-- A refund submitter that always succeeds with a 200 response. -/
def bnbRefundOk : String → Except Unit (Option BnbTxResult) :=
  fun _ => Except.ok (some ⟨200, "h"⟩)

/-- Chain B with one deputy, limit 2: the first incoming page holds a
single swap (short, non-empty), every later page is empty. -/
def bcShortPage : BnbClient :=
  ⟨fun _ _ off => if off = 0 then .batch [swOpenExpired] else .batch [],
   fun _ _ _ => .batch [], .ok 60, bnbRefundOk⟩

def stShortPage : RefundBotState := ⟨["d1"], 2, 0, 0⟩

/-- Chain B where deputy d1 has one full incoming page (limit 1) at
offset 0 and nothing after; deputy d2 has nothing at all. -/
def bcFullThenEmpty : BnbClient :=
  ⟨fun d _ off => if d = "d1" ∧ off = 0 then .batch [swOpenExpired] else .batch [],
   fun _ _ _ => .batch [], .ok 60, bnbRefundOk⟩

def stTwoDeputies : RefundBotState := ⟨["d1", "d2"], 1, 0, 0⟩

/-- Chain B with one deputy, limit 1: a full first incoming page, then
every later page request throws. -/
def bcErrSecondPage : BnbClient :=
  ⟨fun _ _ off => if off = 0 then .batch [swOpenExpired] else .err,
   fun _ _ _ => .batch [], .ok 60, bnbRefundOk⟩

def stOneDeputy : RefundBotState := ⟨["d1"], 1, 0, 0⟩

/-- Chain B with deputies d1, d2 (limit 1): d1 has a full first page
then throws; d2 always returns empty pages. -/
def bcErrTwoDeputy : BnbClient :=
  ⟨fun d _ off =>
    if d = "d1" then (if off = 0 then .batch [swOpenExpired] else .err) else .batch [],
   fun _ _ _ => .batch [], .ok 60, bnbRefundOk⟩

/-- Chain B whose node-info (latest block height) request throws. -/
def bcNodeErr : BnbClient :=
  ⟨fun _ _ _ => .batch [], fun _ _ _ => .batch [], .error (), bnbRefundOk⟩

/-- Chain B with one deputy, limit 3: one incoming page holding an
open-expired, an open-live and a completed swap. -/
def bcMixedPage : BnbClient :=
  ⟨fun _ _ off => if off = 0 then .batch [swOpenExpired, swOpenLive, swCompleted] else .batch [],
   fun _ _ _ => .batch [], .ok 60, bnbRefundOk⟩

def stMixed : RefundBotState := ⟨["d1"], 3, 0, 0⟩

/-- A Kava client with no expired swaps and a healthy account (sequence 5). -/
def kcEmpty : KavaClient :=
  ⟨fun _ _ => .batch [], .ok 5, fun _ _ => .ok ("tx"), fun a b c => a ++ b ++ c⟩

/-- A Kava client with two single-record pages (offsets 0 and 1, limit 1),
account sequence 5, and a submitter that rejects the second swap. -/
def kcTwoPages : KavaClient :=
  ⟨fun off _ => if off = 0 then .batch [⟨"r1", "s1", "o1"⟩]
    else if off = 1 then .batch [⟨"r2", "s2", "o2"⟩] else .batch [],
   .ok 5,
   fun swapID _ => if swapID = "r2s2o2" then .error () else .ok ("tx"),
   fun a b c => a ++ b ++ c⟩

/-- A Kava client where every query, the metadata fetch and every
submission throw. -/
def kcAllErr : KavaClient :=
  ⟨fun _ _ => .err, .error (), fun _ _ => .error (), fun a b c => a ++ b ++ c⟩

/-- The Kava pass output for `kcTwoPages` at limit 1. -/
def kavaTwoPagesOut : KavaPassOut :=
  ⟨["r1s1o1", "r2s2o2"], [0, 1, 2],
   [("r1s1o1", 5, Except.ok ("tx")), ("r2s2o2", 6, Except.error ())], [25000, 25000]⟩

/-- The Binance pass output for `bcErrSecondPage` over `stOneDeputy`. -/
def bnbErrPageOut : BnbPassOut :=
  ⟨["idA"], ⟨[swOpenExpired], 1, 0, [swOpenExpired], [("d1", 0), ("d1", 1)]⟩,
   ⟨[], 0, 0, [], [("d1", 0)]⟩, [("idA", Except.ok (some ⟨200, "h"⟩))], [5000]⟩

/-- The cycle output for `kcEmpty` with `bcFullThenEmpty` over `stTwoDeputies`. -/
def cycleFullScan : CycleOut :=
  ⟨⟨[], [0], [], []⟩,
   ⟨["idA"],
    ⟨[swOpenExpired], 0, 0, [swOpenExpired], [("d1", 0), ("d1", 1), ("d2", 0)]⟩,
    ⟨[], 0, 0, [], [("d1", 0), ("d2", 0)]⟩,
    [("idA", Except.ok (some ⟨200, "h"⟩))], [5000]⟩,
   stTwoDeputies⟩

/-! ## Claims -/

/-- C1 counterexample: with limit 2, the first incoming page for deputy
d1 returns exactly one swap — non-empty but strictly shorter than the
limit.  The request trace of the scan is `[(d1, 0), (d1, 2)]`: the
scanner advanced the offset by `limit` (to 2 = 0 + 2) after that short
page and issued a further page request, so the offset advanced after a
page of length 1 ≠ limit and the short page did not complete the
direction's scan — refuting C1's "when and only when the returned page
contains exactly `limit` items" advancement policy and its "a page
shorter than `limit` ... completes that direction's scan" clause. -/
theorem C1_counterexample :
    getRefundableBinanceSwaps bcShortPage stShortPage true 10 =
      Except.ok (some (["idA"],
        ⟨[swOpenExpired], 0, 0, [swOpenExpired], [("d1", 0), ("d1", 2)]⟩)) ∧
    (bnbQuery bcShortPage true ("d1") 2 0).items.length = 1 ∧
    stShortPage.limit = 2 := by
  refine ⟨rfl, rfl, rfl⟩

/-- C1 (amended): in every deputy/direction scan loop (pages never
exceeding the requested limit), the request trace is a `ScanReqs`
chain: consecutive requested offsets differ by exactly `limit`, the
loop continues exactly after each non-empty page (full or short), and
it ends exactly at the first error, missing or empty page; when it ends
on an empty/missing page, both local offsets are reset to the values
they had at the start of the scan. -/
theorem C1_offset_policy (client : BnbClient) (incoming : Bool)
    (limit latestHeight initInc initOut : Nat) (deputy : String)
    (hpages : ∀ off, ((bnbQuery client incoming deputy limit off).items).length ≤ limit)
    (fuel : Nat) (st st' : BnbScanSt) (ex : DeputyExit)
    (hrun : bnbLoop client incoming limit latestHeight initInc initOut deputy fuel st =
      some (st', ex)) :
    ∃ rs, ScanReqs (bnbQuery client incoming deputy limit) limit (st.curOff incoming) rs ∧
      st'.requests = st.requests ++ rs.map (fun o => (deputy, o)) ∧
      (ex = DeputyExit.emptyStop →
        st'.offsetIncoming = initInc ∧ st'.offsetOutgoing = initOut) := by
  obtain ⟨rs, h1, h2, _, _, h5, _⟩ :=
    bnbLoop_trace client incoming limit latestHeight initInc initOut deputy hpages
      fuel st st' ex hrun
  exact ⟨rs, h1, h2, h5⟩

/-- C1 witness: the amended offset policy evaluated on `bcShortPage`. -/
theorem C1_offset_policy_witness :
    ∃ rs, ScanReqs (bnbQuery bcShortPage true ("d1") 2) 2 0 rs ∧
      [("d1", 0), ("d1", 2)] = ([] : List (String × Nat)) ++ rs.map (fun o => ("d1", o)) ∧
      (DeputyExit.emptyStop = DeputyExit.emptyStop → 0 = 0 ∧ 0 = 0) :=
  C1_offset_policy bcShortPage true 2 60 0 0 ("d1")
    (by intro off; by_cases h0 : off = 0 <;> simp [bnbQuery, bcShortPage, h0, QueryOutcome.items])
    10 ⟨[], 0, 0, [], []⟩
    ⟨[swOpenExpired], 0, 0, [swOpenExpired], [("d1", 0), ("d1", 2)]⟩
    DeputyExit.emptyStop rfl

/-- C2 (confirmed): a chain-B swap record returned by a listing query
during the scan is included (by ID) in the scanner's result exactly
when its status is Open (code 1) and its expireHeight is at most the
chain's latest block height, provided pages respect the requested limit
and the fetched records carry pairwise-distinct swap IDs. -/
theorem C2_refundable_filter (client : BnbClient) (st : RefundBotState) (incoming : Bool)
    (fuel h : Nat) (ids : List String) (s : BnbScanSt)
    (hnode : client.nodeInfoHeight = Except.ok h)
    (hpages : ∀ d off, ((bnbQuery client incoming d st.limit off).items).length ≤ st.limit)
    (hrun : getRefundableBinanceSwaps client st incoming fuel = Except.ok (some (ids, s)))
    (hnodup : (s.fetched.map (fun sw => sw.swapId)).Nodup)
    (sw : BnbSwap) (hmem : sw ∈ s.fetched) :
    sw.swapId ∈ ids ↔ (sw.status = 1 ∧ sw.expireHeight ≤ h) := by
  rw [getRefundableBinanceSwaps, hnode] at hrun
  dsimp only at hrun
  rcases hd : bnbDeputies client incoming st.limit h st.offsetIncoming st.offsetOutgoing fuel
      st.deputyAddresses ⟨[], st.offsetIncoming, st.offsetOutgoing, [], []⟩ with _ | s0 <;>
    rw [hd] at hrun
  · simp at hrun
  · simp only [Except.ok.injEq, Option.some.injEq, Prod.mk.injEq] at hrun
    obtain ⟨hids, hs⟩ := hrun
    have hfil : s.openSwaps = s.fetched.filter (refundable h) :=
      hs ▸ bnbDeputies_filter_inv client incoming st.limit h st.offsetIncoming
        st.offsetOutgoing fuel hpages st.deputyAddresses _ s0 hd rfl
    have hids2 : s.openSwaps.map (fun sw => sw.swapId) = ids := hs ▸ hids
    subst hids2
    constructor
    · intro hin
      obtain ⟨sw', hsw', heq⟩ := List.mem_map.mp hin
      rw [hfil] at hsw'
      obtain ⟨hmem', hpred'⟩ := List.mem_filter.mp hsw'
      have hswsw : sw' = sw := List.inj_on_of_nodup_map hnodup hmem' hmem heq
      subst hswsw
      simpa [refundable] using hpred'
    · intro hpred
      refine List.mem_map_of_mem _ ?_
      rw [hfil]
      exact List.mem_filter.mpr ⟨hmem, by simpa [refundable] using hpred⟩

/-- C2 witness: on a page holding an open-expired, an open-live and a
completed swap at height 60, exactly the open-expired one is included. -/
theorem C2_refundable_filter_witness :
    (("idA" : String) ∈ ["idA"] ↔ ((1 : Nat) = 1 ∧ (50 : Nat) ≤ 60)) ∧
    (("idB" : String) ∈ ["idA"] ↔ ((1 : Nat) = 1 ∧ (70 : Nat) ≤ 60)) := by
  have hp : ∀ (d : String) (off : Nat),
      ((bnbQuery bcMixedPage true d stMixed.limit off).items).length ≤ stMixed.limit := by
    intro d off
    by_cases h0 : off = 0 <;> simp [bnbQuery, bcMixedPage, h0, QueryOutcome.items, stMixed]
  refine ⟨?_, ?_⟩
  · exact C2_refundable_filter bcMixedPage stMixed true 10 60 ["idA"]
      ⟨[swOpenExpired], 0, 0, [swOpenExpired, swOpenLive, swCompleted], [("d1", 0), ("d1", 3)]⟩
      rfl hp rfl (by decide) swOpenExpired (by decide)
  · exact C2_refundable_filter bcMixedPage stMixed true 10 60 ["idA"]
      ⟨[swOpenExpired], 0, 0, [swOpenExpired, swOpenLive, swCompleted], [("d1", 0), ("d1", 3)]⟩
      rfl hp rfl (by decide) swOpenLive (by decide)

/-- C3 counterexample: a failure of chain B's node-info (latest block
height) query — a query failure inside the cycle — escapes `refundSwaps`
uncaught (the request is outside every try/catch), so the cycle itself
errors rather than containing the failure; refutes "no refund or query
failure at any point in the cycle crashes the host process". -/
theorem C3_counterexample :
    refundSwaps kcEmpty bcNodeErr stOneDeputy 10 = some (Except.error ()) := by
  rfl

/-- C3 (amended): whatever the Kava client does — every page query,
the metadata fetch and every submission may throw — once its pass
finishes it never raises, and chain B's pass runs with a result
independent of chain A; when chain B's node-info query succeeds, no
refund or page-query failure escapes the cycle; construction succeeds
exactly when the deputy-address list is non-empty.  (Only a node-info
failure, as in the counterexample, escapes.) -/
theorem C3_error_containment (kc : KavaClient) (bc : BnbClient) (st : RefundBotState)
    (fuel : Nat) (kout : KavaPassOut) (h : Nat)
    (hk : refundKavaSwaps kc st.limit fuel = some kout)
    (hnode : bc.nodeInfoHeight = Except.ok h) :
    (∀ bout, refundBinanceChainSwaps bc st fuel = Except.ok (some bout) →
      refundSwaps kc bc st fuel = some (Except.ok ⟨kout, bout, st⟩)) ∧
    (∀ e, refundSwaps kc bc st fuel ≠ some (Except.error e)) ∧
    (∀ (ds : List String) (l oi oo : Nat), (∃ s, make ds l oi oo = Except.ok s) ↔ ds ≠ []) := by
  refine ⟨?_, ?_, ?_⟩
  · intro bout hb
    rw [refundSwaps, hk, hb]
  · intro e hcon
    rw [refundSwaps, hk] at hcon
    rcases hb : refundBinanceChainSwaps bc st fuel with e' | ob <;> rw [hb] at hcon
    · exact refundBinanceChainSwaps_no_error bc st fuel h hnode e' hb
    · rcases ob with _ | bOut <;> simp at hcon
  · intro ds l oi oo
    constructor
    · rintro ⟨s, hs⟩ hnil
      subst hnil
      simp [make] at hs
    · intro hne
      exact ⟨⟨ds, l, oi, oo⟩,
        by rw [make, if_neg (fun hlen => hne (List.length_eq_zero.mp hlen))]⟩

/-- C3 witness: with a Kava client whose every operation throws, chain
B's pass still runs and submits its refund; the cycle never errors when
node-info succeeds. -/
theorem C3_error_containment_witness :
    (∀ bout, refundBinanceChainSwaps bcErrSecondPage stOneDeputy 10 = Except.ok (some bout) →
      refundSwaps kcAllErr bcErrSecondPage stOneDeputy 10 =
        some (Except.ok ⟨⟨[], [0], [], []⟩, bout, stOneDeputy⟩)) ∧
    (∀ e, refundSwaps kcAllErr bcErrSecondPage stOneDeputy 10 ≠ some (Except.error e)) ∧
    (∀ (ds : List String) (l oi oo : Nat), (∃ s, make ds l oi oo = Except.ok s) ↔ ds ≠ []) :=
  C3_error_containment kcAllErr bcErrSecondPage stOneDeputy 10 ⟨[], [0], [], []⟩ 60 rfl rfl

/-- C4 counterexample: with one deputy (limit 1), the incoming scan
fetched a full page holding one refundable swap and then hit a query
error on its second page; the pass nevertheless returned that swap
(result ["idA"], not the empty result) and attempted one submission —
refuting "immediately returns the empty result for that direction (so
zero submissions are attempted for it this cycle)". -/
theorem C4_counterexample :
    refundBinanceChainSwaps bcErrSecondPage stOneDeputy 10 =
      Except.ok (some bnbErrPageOut) ∧
    bcErrSecondPage.getSwapByCreator ("d1") 1 1 = QueryOutcome.err ∧
    bnbErrPageOut.swapIDs = ["idA"] ∧
    bnbErrPageOut.attempts.length = 1 := by
  refine ⟨rfl, rfl, rfl, rfl⟩

/-- C4 (amended): on a page-query error the Kava scan logs and returns
the empty result; no scan ever requests the same offset twice within a
deputy loop (no mid-scan retry); a chain-B deputy loop that ends with a
query error stops that deputy immediately but keeps the swaps already
collected, and the scan proceeds with the remaining deputies. -/
theorem C4_error_abort_policy :
    (∀ (client : KavaClient) (limit : Nat) (rs : List Nat) (olast : Nat),
      ScanReqs (fun o => client.getSwaps o limit) limit 0 rs → olast ∈ rs →
      client.getSwaps olast limit = QueryOutcome.err →
      getRefundableKavaSwaps client limit rs.length = some ([], rs)) ∧
    (∀ (α : Type) (q : Nat → QueryOutcome α) (limit o : Nat) (rs : List Nat),
      0 < limit → ScanReqs q limit o rs → rs.Nodup) ∧
    (∀ (client : BnbClient) (incoming : Bool)
      (limit latestHeight initInc initOut fuel : Nat)
      (deputy : String) (rest : List String) (st st' : BnbScanSt),
      bnbLoop client incoming limit latestHeight initInc initOut deputy fuel st =
        some (st', DeputyExit.errStop) →
      (∃ extra, st'.openSwaps = st.openSwaps ++ extra) ∧
      bnbDeputies client incoming limit latestHeight initInc initOut fuel
          (deputy :: rest) st =
        bnbDeputies client incoming limit latestHeight initInc initOut fuel rest st') := by
  refine ⟨getRefundableKavaSwaps_err,
    fun α q limit o rs hl hscan => scanReqs_nodup hl hscan, ?_⟩
  intro client incoming limit latestHeight initInc initOut fuel deputy rest st st' hrun
  exact ⟨bnbLoop_openSwaps_mono client incoming limit latestHeight initInc initOut deputy
      fuel st st' _ hrun,
    bnbDeputies_cons client incoming limit latestHeight initInc initOut fuel deputy rest
      st st' _ hrun⟩

/-- C4 witness: the amended error policy evaluated on `kcAllErr` (whose
first page errors) and on `bcErrSecondPage`'s error-ending deputy loop. -/
theorem C4_error_abort_policy_witness :
    getRefundableKavaSwaps kcAllErr 1 1 = some ([], [0]) ∧
    ([0] : List Nat).Nodup ∧
    ((∃ extra, [swOpenExpired] = ([] : List BnbSwap) ++ extra) ∧
      bnbDeputies bcErrSecondPage true 1 60 0 0 10 ["d1"] ⟨[], 0, 0, [], []⟩ =
        bnbDeputies bcErrSecondPage true 1 60 0 0 10 []
          ⟨[swOpenExpired], 1, 0, [swOpenExpired], [("d1", 0), ("d1", 1)]⟩) :=
  ⟨C4_error_abort_policy.1 kcAllErr 1 [0] 0 (ScanReqs.last rfl) (by decide) rfl,
   C4_error_abort_policy.2.1 KavaSwap (fun o => kcAllErr.getSwaps o 1) 1 0 [0]
     (by decide) (ScanReqs.last rfl),
   C4_error_abort_policy.2.2 bcErrSecondPage true 1 60 0 0 10 ("d1") []
     ⟨[], 0, 0, [], []⟩ ⟨[swOpenExpired], 1, 0, [swOpenExpired], [("d1", 0), ("d1", 1)]⟩ rfl⟩

/-- C5 (confirmed): the account sequence is fetched once before the
submission loop (the single `loadMetaData` value `base`), and the i-th
submission of the batch is attempted with sequence `base + i`.  The
right-hand side mentions neither the submission outcomes nor the
client's `refundSwap` behaviour, so the sequence assignment is
independent of which earlier submissions succeeded or failed. -/
theorem C5_sequence_numbers (client : KavaClient) (limit fuel base : Nat) (out : KavaPassOut)
    (hmeta : client.loadMetaData = Except.ok base)
    (hrun : refundKavaSwaps client limit fuel = some out) :
    out.attempts.map (fun a => (a.1, a.2.1)) =
      out.swapIDs.enum.map (fun p => (p.2, base + p.1)) := by
  rw [refundKavaSwaps] at hrun
  rcases hg : getRefundableKavaSwaps client limit fuel with _ | ⟨ids, reqs⟩ <;>
    rw [hg] at hrun
  · cases hrun
  · dsimp only at hrun
    rw [hmeta] at hrun
    dsimp only at hrun
    simp only [Option.some.injEq] at hrun
    subst hrun
    dsimp only
    rw [kavaSubmitLoop_attempts]
    rfl

/-- C5 witness: the sequence policy evaluated on `kcTwoPages` (base 5,
two swaps, second submission rejected). -/
theorem C5_sequence_numbers_witness :
    kavaTwoPagesOut.attempts.map (fun a => (a.1, a.2.1)) =
      kavaTwoPagesOut.swapIDs.enum.map (fun p => (p.2, 5 + p.1)) :=
  C5_sequence_numbers kcTwoPages 1 10 5 kavaTwoPagesOut rfl rfl

/-- C6 (confirmed): on both chains the submitter attempts exactly one
submission per discovered swap ID — the attempted-ID list equals the
discovered-ID list — for every submission-outcome behaviour of the
clients, so an individual failure (caught and logged in the loop) never
prevents the remaining submissions of the batch. -/
theorem C6_attempt_isolation (kc : KavaClient) (limit fuel base : Nat) (kout : KavaPassOut)
    (bc : BnbClient) (st : RefundBotState) (fuelB : Nat) (bout : BnbPassOut)
    (hmeta : kc.loadMetaData = Except.ok base)
    (hk : refundKavaSwaps kc limit fuel = some kout)
    (hb : refundBinanceChainSwaps bc st fuelB = Except.ok (some bout)) :
    kout.attempts.map (fun a => a.1) = kout.swapIDs ∧
    bout.attempts.map (fun a => a.1) = bout.swapIDs := by
  constructor
  · rw [refundKavaSwaps] at hk
    rcases hg : getRefundableKavaSwaps kc limit fuel with _ | ⟨ids, reqs⟩ <;> rw [hg] at hk
    · cases hk
    · dsimp only at hk
      rw [hmeta] at hk
      dsimp only at hk
      simp only [Option.some.injEq] at hk
      subst hk
      exact kavaSubmitLoop_ids kc base ids 0
  · rw [refundBinanceChainSwaps] at hb
    rcases h1 : getRefundableBinanceSwaps bc st true fuelB with e | o1 <;> rw [h1] at hb
    · simp at hb
    · rcases o1 with _ | ⟨ids1, s1⟩ <;> dsimp only at hb
      · simp at hb
      · rcases h2 : getRefundableBinanceSwaps bc st false fuelB with e | o2 <;> rw [h2] at hb
        · simp at hb
        · rcases o2 with _ | ⟨ids2, s2⟩ <;> dsimp only at hb
          · simp at hb
          · simp only [Except.ok.injEq, Option.some.injEq] at hb
            subst hb
            exact bnbSubmitLoop_ids bc (ids1 ++ ids2)

/-- C6 witness: attempt counts evaluated on `kcTwoPages` (one of two
Kava submissions fails) and `bcErrSecondPage` (one Binance submission). -/
theorem C6_attempt_isolation_witness :
    kavaTwoPagesOut.attempts.map (fun a => a.1) = kavaTwoPagesOut.swapIDs ∧
    bnbErrPageOut.attempts.map (fun a => a.1) = bnbErrPageOut.swapIDs :=
  C6_attempt_isolation kcTwoPages 1 10 5 kavaTwoPagesOut bcErrSecondPage stOneDeputy 10
    bnbErrPageOut rfl rfl rfl

/-- C7 counterexample: during this cycle the incoming scan advanced its
local offset to 1 (a page was requested at offset 1, as the request
trace shows), yet after the cycle the bot state is unchanged and
`printOffsets` still reports the construction-time values (0, 0) — the
instance offsets are never mutated by the scanner, refuting C7's
"mutated by the Scanner during a scan ... rather than always equalling
the construction-time values". -/
theorem C7_counterexample :
    refundSwaps kcEmpty bcFullThenEmpty stTwoDeputies 10 = some (Except.ok cycleFullScan) ∧
    ("d1", 1) ∈ cycleFullScan.bnb.scanIncoming.requests ∧
    printOffsets cycleFullScan.finalState = (0, 0) ∧
    stTwoDeputies.offsetIncoming = 0 ∧ stTwoDeputies.offsetOutgoing = 0 := by
  refine ⟨rfl, by decide, rfl, rfl, rfl⟩

/-- C7 (amended): the per-(chain, direction) offsets are initialized at
construction and never written again: the scanner works on local copies
only, every cycle returns the bot state it started from, and
`printOffsets` reports the construction-time values after any number of
cycles. -/
theorem C7_offsets_constant (kc : KavaClient) (bc : BnbClient) (st : RefundBotState)
    (fuel n : Nat) (out : CycleOut)
    (h : refundSwaps kc bc st fuel = some (Except.ok out)) :
    out.finalState = st ∧
    runCycles kc bc fuel n st = st ∧
    printOffsets (runCycles kc bc fuel n st) = (st.offsetIncoming, st.offsetOutgoing) :=
  ⟨refundSwaps_finalState kc bc st fuel out h, runCycles_eq kc bc fuel n st,
    by rw [runCycles_eq]; rfl⟩

/-- C7 witness: offset constancy over three cycles of the full-scan
scenario. -/
theorem C7_offsets_constant_witness :
    cycleFullScan.finalState = stTwoDeputies ∧
    runCycles kcEmpty bcFullThenEmpty 10 3 stTwoDeputies = stTwoDeputies ∧
    printOffsets (runCycles kcEmpty bcFullThenEmpty 10 3 stTwoDeputies) =
      (stTwoDeputies.offsetIncoming, stTwoDeputies.offsetOutgoing) :=
  C7_offsets_constant kcEmpty bcFullThenEmpty stTwoDeputies 10 3 cycleFullScan rfl

/-- C8 (confirmed): after every chain-A (Kava) submission the bot
sleeps 25000 ms (25 seconds) and after every chain-B (Binance Chain)
submission it sleeps 5000 ms (5 seconds): the sleep traces are exactly
one fixed-length pause per submitted swap. -/
theorem C8_pacing_sleeps (kc : KavaClient) (limit fuel base : Nat) (kout : KavaPassOut)
    (bc : BnbClient) (st : RefundBotState) (fuelB : Nat) (bout : BnbPassOut)
    (hmeta : kc.loadMetaData = Except.ok base)
    (hk : refundKavaSwaps kc limit fuel = some kout)
    (hb : refundBinanceChainSwaps bc st fuelB = Except.ok (some bout)) :
    kout.sleeps = List.replicate kout.swapIDs.length 25000 ∧
    bout.sleeps = List.replicate bout.swapIDs.length 5000 := by
  constructor
  · rw [refundKavaSwaps] at hk
    rcases hg : getRefundableKavaSwaps kc limit fuel with _ | ⟨ids, reqs⟩ <;> rw [hg] at hk
    · cases hk
    · dsimp only at hk
      rw [hmeta] at hk
      dsimp only at hk
      simp only [Option.some.injEq] at hk
      subst hk
      exact kavaSubmitLoop_sleeps kc base ids 0
  · rw [refundBinanceChainSwaps] at hb
    rcases h1 : getRefundableBinanceSwaps bc st true fuelB with e | o1 <;> rw [h1] at hb
    · simp at hb
    · rcases o1 with _ | ⟨ids1, s1⟩ <;> dsimp only at hb
      · simp at hb
      · rcases h2 : getRefundableBinanceSwaps bc st false fuelB with e | o2 <;> rw [h2] at hb
        · simp at hb
        · rcases o2 with _ | ⟨ids2, s2⟩ <;> dsimp only at hb
          · simp at hb
          · simp only [Except.ok.injEq, Option.some.injEq] at hb
            subst hb
            exact bnbSubmitLoop_sleeps bc (ids1 ++ ids2)

/-- C8 witness: the pacing traces evaluated on `kcTwoPages` and
`bcErrSecondPage`. -/
theorem C8_pacing_sleeps_witness :
    kavaTwoPagesOut.sleeps = List.replicate kavaTwoPagesOut.swapIDs.length 25000 ∧
    bnbErrPageOut.sleeps = List.replicate bnbErrPageOut.swapIDs.length 5000 :=
  C8_pacing_sleeps kcTwoPages 1 10 5 kavaTwoPagesOut bcErrSecondPage stOneDeputy 10
    bnbErrPageOut rfl rfl rfl

/-- C9 counterexample: deputy d1's incoming scan (limit 1) advanced the
shared offset to 1 after a full page, but its final empty page reset the
local offsets to the direction's starting value, so deputy d2's first
page request was issued at offset 0 — the starting offset, not the
offset d1's advancement had reached — and d2's first page is not
skipped; the request trace [(d1, 0), (d1, 1), (d2, 0)] refutes C9 as
stated. -/
theorem C9_counterexample :
    getRefundableBinanceSwaps bcFullThenEmpty stTwoDeputies true 10 =
      Except.ok (some (["idA"],
        ⟨[swOpenExpired], 0, 0, [swOpenExpired], [("d1", 0), ("d1", 1), ("d2", 0)]⟩)) ∧
    stTwoDeputies.offsetIncoming = 0 ∧
    stTwoDeputies.limit = 1 := by
  refine ⟨rfl, rfl, rfl⟩

/-- C9 (amended): one offset state is shared across the deputies of a
direction scan: deputy k+1's first page request is issued at the offset
state deputy k's loop left behind.  When deputy k's loop ended with an
empty/missing page that state was reset to the scan's starting offsets
(so deputy k+1 rescans from the start); only when deputy k's loop ended
with a query error does the advanced offset persist, making deputy k+1
skip its earlier pages. -/
theorem C9_deputy_offset_sharing (client : BnbClient) (incoming : Bool)
    (limit latestHeight initInc initOut fuel : Nat) (d1 d2 : String)
    (hp1 : ∀ off, ((bnbQuery client incoming d1 limit off).items).length ≤ limit)
    (hp2 : ∀ off, ((bnbQuery client incoming d2 limit off).items).length ≤ limit)
    (st st1 st2 : BnbScanSt) (ex1 ex2 : DeputyExit)
    (h1 : bnbLoop client incoming limit latestHeight initInc initOut d1 fuel st =
      some (st1, ex1))
    (h2 : bnbLoop client incoming limit latestHeight initInc initOut d2 fuel st1 =
      some (st2, ex2)) :
    bnbDeputies client incoming limit latestHeight initInc initOut fuel [d1, d2] st =
      some st2 ∧
    (∃ rs2, rs2.head? = some (st1.curOff incoming) ∧
      st2.requests = st1.requests ++ rs2.map (fun o => (d2, o)) ∧
      ScanReqs (bnbQuery client incoming d2 limit) limit (st1.curOff incoming) rs2) ∧
    (ex1 = DeputyExit.emptyStop →
      st1.offsetIncoming = initInc ∧ st1.offsetOutgoing = initOut) ∧
    (ex1 = DeputyExit.errStop →
      bnbQuery client incoming d1 limit (st1.curOff incoming) = QueryOutcome.err) := by
  obtain ⟨rs1, _, _, _, _, hempty1, herr1⟩ :=
    bnbLoop_trace client incoming limit latestHeight initInc initOut d1 hp1 fuel st st1 ex1 h1
  obtain ⟨rs2, hscan2, hreq2, _, _, _, _⟩ :=
    bnbLoop_trace client incoming limit latestHeight initInc initOut d2 hp2 fuel st1 st2 ex2 h2
  refine ⟨?_, ⟨rs2, scanReqs_head hscan2, hreq2, hscan2⟩, hempty1, fun hx => (herr1 hx).1⟩
  rw [bnbDeputies_cons client incoming limit latestHeight initInc initOut fuel d1 [d2]
      st st1 ex1 h1,
    bnbDeputies_cons client incoming limit latestHeight initInc initOut fuel d2 []
      st1 st2 ex2 h2,
    bnbDeputies]

/-- C9 witness: deputy d1 ends with a query error at offset 1, so
deputy d2's first request is issued at offset 1, skipping d2's page 0. -/
theorem C9_deputy_offset_sharing_witness :
    bnbDeputies bcErrTwoDeputy true 1 60 0 0 10 ["d1", "d2"] ⟨[], 0, 0, [], []⟩ =
      some ⟨[swOpenExpired], 0, 0, [swOpenExpired], [("d1", 0), ("d1", 1), ("d2", 1)]⟩ ∧
    (∃ rs2, rs2.head? = some 1 ∧
      [("d1", 0), ("d1", 1), ("d2", 1)] =
        [("d1", 0), ("d1", 1)] ++ rs2.map (fun o => ("d2", o)) ∧
      ScanReqs (bnbQuery bcErrTwoDeputy true ("d2") 1) 1 1 rs2) ∧
    (DeputyExit.errStop = DeputyExit.emptyStop → (1 : Nat) = 0 ∧ (0 : Nat) = 0) ∧
    (DeputyExit.errStop = DeputyExit.errStop →
      bnbQuery bcErrTwoDeputy true ("d1") 1 1 = QueryOutcome.err) :=
  C9_deputy_offset_sharing bcErrTwoDeputy true 1 60 0 0 10 ("d1") ("d2")
    (by intro off; by_cases h0 : off = 0 <;>
      simp [bnbQuery, bcErrTwoDeputy, h0, QueryOutcome.items])
    (by intro off; by_cases h0 : off = 0 <;>
      simp [bnbQuery, bcErrTwoDeputy, h0, QueryOutcome.items])
    ⟨[], 0, 0, [], []⟩
    ⟨[swOpenExpired], 1, 0, [swOpenExpired], [("d1", 0), ("d1", 1)]⟩
    ⟨[swOpenExpired], 0, 0, [swOpenExpired], [("d1", 0), ("d1", 1), ("d2", 1)]⟩
    DeputyExit.errStop DeputyExit.emptyStop rfl rfl

/-- C10 (confirmed): a page-until-empty loop terminates exactly when
the page oracle, followed along the advancing offsets, eventually stops
continuing (an error, missing payload or empty batch — `ScanReqs`
existence); and when only finitely many consecutive non-empty pages
exist the scan is total: the Kava scan (absent errors) returns the IDs
of the concatenation of all fetched pages, and a chain-B deputy loop
collects exactly the concatenation of its fetched pages' refundable
records. -/
theorem C10_scan_termination (kclient : KavaClient) (limitK : Nat)
    (bclient : BnbClient) (incoming : Bool)
    (limitB latestHeight initInc initOut : Nat) (deputy : String) (st : BnbScanSt)
    (hpages : ∀ off, ((bnbQuery bclient incoming deputy limitB off).items).length ≤ limitB) :
    ((∃ fuel r, kavaScanLoop kclient limitK fuel 0 [] [] = some r) ↔
      (∃ rs, ScanReqs (fun o => kclient.getSwaps o limitK) limitK 0 rs)) ∧
    (∀ rs, ScanReqs (fun o => kclient.getSwaps o limitK) limitK 0 rs →
      (∀ o ∈ rs, kclient.getSwaps o limitK ≠ QueryOutcome.err) →
      getRefundableKavaSwaps kclient limitK rs.length =
        some ((pagesItems (fun o => kclient.getSwaps o limitK) rs).map
          (fun s => kclient.calculateSwapID s.random_number_hash s.sender s.sender_other_chain),
          rs)) ∧
    ((∃ fuel r,
        bnbLoop bclient incoming limitB latestHeight initInc initOut deputy fuel st = some r) ↔
      (∃ rs, ScanReqs (bnbQuery bclient incoming deputy limitB) limitB
        (st.curOff incoming) rs)) ∧
    (∀ rs, ScanReqs (bnbQuery bclient incoming deputy limitB) limitB (st.curOff incoming) rs →
      ∃ st' ex,
        bnbLoop bclient incoming limitB latestHeight initInc initOut deputy rs.length st =
          some (st', ex) ∧
        st'.openSwaps = st.openSwaps ++
          (pagesItems (bnbQuery bclient incoming deputy limitB) rs).filter
            (refundable latestHeight)) := by
  refine ⟨⟨?_, ?_⟩, ?_, ⟨?_, ?_⟩, ?_⟩
  · rintro ⟨fuel, ⟨swaps, reqs⟩, hr⟩
    obtain ⟨rs, hscan, _, _⟩ := kavaScanLoop_trace kclient limitK fuel 0 [] [] swaps reqs hr
    exact ⟨rs, hscan⟩
  · rintro ⟨rs, hscan⟩
    obtain ⟨r, hr⟩ := Option.isSome_iff_exists.mp (kavaScanLoop_eval kclient limitK hscan [] [])
    exact ⟨rs.length, r, hr⟩
  · intro rs hscan hnoerr
    exact getRefundableKavaSwaps_eval kclient limitK rs hscan hnoerr
  · rintro ⟨fuel, ⟨st', ex⟩, hr⟩
    obtain ⟨rs, hscan, _⟩ :=
      bnbLoop_trace bclient incoming limitB latestHeight initInc initOut deputy hpages
        fuel st st' ex hr
    exact ⟨rs, hscan⟩
  · rintro ⟨rs, hscan⟩
    obtain ⟨r, hr⟩ := Option.isSome_iff_exists.mp
      (bnbLoop_eval bclient incoming limitB latestHeight initInc initOut deputy hpages
        hscan st rfl)
    exact ⟨rs.length, r, hr⟩
  · intro rs hscan
    obtain ⟨⟨st', ex⟩, hr⟩ := Option.isSome_iff_exists.mp
      (bnbLoop_eval bclient incoming limitB latestHeight initInc initOut deputy hpages
        hscan st rfl)
    obtain ⟨rs', hscan', _, _, hopen, _, _⟩ :=
      bnbLoop_trace bclient incoming limitB latestHeight initInc initOut deputy hpages
        rs.length st st' ex hr
    have hrs : rs' = rs := scanReqs_unique hscan' hscan
    subst hrs
    exact ⟨st', ex, hr, hopen⟩

/-- C10 witness: termination and total-value evaluated on `kcTwoPages`
(two non-empty pages then an empty one) and on `bcShortPage`'s deputy
loop (one short page then an empty one). -/
theorem C10_scan_termination_witness :
    (∃ fuel r, kavaScanLoop kcTwoPages 1 fuel 0 [] [] = some r) ∧
    getRefundableKavaSwaps kcTwoPages 1 3 = some (["r1s1o1", "r2s2o2"], [0, 1, 2]) ∧
    (∃ fuel r, bnbLoop bcShortPage true 2 60 0 0 ("d1") fuel ⟨[], 0, 0, [], []⟩ = some r) ∧
    (∃ st' ex, bnbLoop bcShortPage true 2 60 0 0 ("d1") 2 ⟨[], 0, 0, [], []⟩ =
        some (st', ex) ∧
      st'.openSwaps = ([] : List BnbSwap) ++
        (pagesItems (bnbQuery bcShortPage true ("d1") 2) [0, 2]).filter (refundable 60)) := by
  have hp : ∀ off, ((bnbQuery bcShortPage true ("d1") 2 off).items).length ≤ 2 := by
    intro off
    by_cases h0 : off = 0 <;> simp [bnbQuery, bcShortPage, h0, QueryOutcome.items]
  have hK : ScanReqs (fun o => kcTwoPages.getSwaps o 1) 1 0 [0, 1, 2] :=
    ScanReqs.step (by decide) (ScanReqs.step (by decide) (ScanReqs.last (by decide)))
  have hB : ScanReqs (bnbQuery bcShortPage true ("d1") 2) 2 0 [0, 2] :=
    ScanReqs.step (by decide) (ScanReqs.last (by decide))
  have main := C10_scan_termination kcTwoPages 1 bcShortPage true 2 60 0 0 ("d1")
    ⟨[], 0, 0, [], []⟩ hp
  exact ⟨main.1.mpr ⟨[0, 1, 2], hK⟩, main.2.1 [0, 1, 2] hK (by decide),
    main.2.2.1.mpr ⟨[0, 2], hB⟩, main.2.2.2 [0, 2] hB⟩

end RefundBot
